import Mathlib

/-!
Verification development for the ConvertXML repository (`src/pain001_v09.py`):
a CSV-to-ISO-20022 `pain.001.001.09` converter.  The Python source is embedded
shallowly: pure functions become Lean functions on `String` / `List Char`,
`Decimal` values become scaled integers, raised `ValueError`s become an
explicit error type in `Except`, and the XML element tree becomes an inductive.

Modelling scope (stated once here): strings are treated as sequences of
Unicode code points; the Python whitespace / control-character / digit /
case-mapping predicates are modelled on the ASCII and Latin-1 ranges that the
program's own data dictionary uses (`str.upper`, `str.isdigit`, `\s` act the
same there).  `decimal.Decimal` is modelled for finite numeric literals
(`Infinity`/`NaN` inputs make the Python code raise an exception type outside
its own `ValueError` taxonomy and are outside the modelled input set, as are
context-precision overflows of `quantize`).
-/

deriving instance DecidableEq for Except

namespace ConvertXML

/-- Python whitespace on the Latin-1 range: the characters `str.strip()` strips
and `\s` matches (`\t \n \v \f \r`, space, `\x1c`-`\x1f`, `\x85`, `\xa0`). -/
def pyIsSpace (c : Char) : Bool :=
  c.toNat = 9 ∨ c.toNat = 10 ∨ c.toNat = 11 ∨ c.toNat = 12 ∨ c.toNat = 13 ∨
  c.toNat = 32 ∨ c.toNat = 28 ∨ c.toNat = 29 ∨ c.toNat = 30 ∨ c.toNat = 31 ∨
  c.toNat = 133 ∨ c.toNat = 160

/-- The control characters replaced by the source's `re.sub(r"[\x00-\x1F\x7F]", " ", s)`. -/
def isCtrl (c : Char) : Bool := c.toNat ≤ 31 ∨ c.toNat = 127

/-- Python `str.strip()` (default whitespace) on a character list. -/
def pyStrip (l : List Char) : List Char :=
  ((l.dropWhile pyIsSpace).reverse.dropWhile pyIsSpace).reverse

/-- Body of `collapseWs`: `prevSpace` records whether the previous character
belonged to a whitespace run already replaced by one space. -/
def collapseWsGo (prevSpace : Bool) : List Char → List Char
  | [] => []
  | c :: rest =>
    if pyIsSpace c then
      if prevSpace then collapseWsGo true rest
      else ' ' :: collapseWsGo true rest
    else c :: collapseWsGo false rest

/-- `re.sub(r"\s+", " ", s)`: replace each maximal whitespace run by one space. -/
def collapseWs (l : List Char) : List Char := collapseWsGo false l

/-- `normalize_text` from the source: strip, turn control characters into
spaces, collapse whitespace runs. -/
def normalize_text (s : String) : String :=
  String.mk (collapseWs ((pyStrip s.data).map (fun c => if isCtrl c then ' ' else c)))

/-- Python `str.upper()` restricted to ASCII case mapping. -/
def asciiUpper (s : String) : String := String.mk (s.data.map Char.toUpper)

/-- ASCII decimal digit. -/
def isDig (c : Char) : Bool := '0' ≤ c ∧ c ≤ '9'

/-- ASCII uppercase letter. -/
def isUpperAlpha (c : Char) : Bool := 'A' ≤ c ∧ c ≤ 'Z'

/-- ASCII uppercase letter or digit (the `[A-Z0-9]` class). -/
def isUpperOrDig (c : Char) : Bool := isUpperAlpha c || isDig c

/-- Python `str.isdigit()` on ASCII strings: nonempty and all digits. -/
def pyIsDigitStr (s : String) : Bool := s.data ≠ [] && s.data.all isDig

-- field length limits from the source
def MAX_E2E : Nat := 35
def MAX_USTRD : Nat := 140
def MAX_NAME : Nat := 140

/-- A calendar date as produced by `datetime.date`. -/
structure Date where
  y : Nat
  m : Nat
  d : Nat
deriving DecidableEq, BEq, Repr

/-- The error taxonomy of the module: one constructor per `raise ValueError`
site, carrying exactly the data interpolated into that site's message
(in particular a row number only where the message has `Linha {line_no}`). -/
inductive Err where
  | missingColumns (missing : List String) (received : List String)
  | fieldTooLong (label : String) (maxLen : Nat) (actual : Nat)
  | invalidTaxId (line : Nat) (value : String)
  | invalidIban (line : Nat) (label : String) (value : String)
  | invalidBic (line : Nat) (label : String) (value : String)
  | invalidDate (value : String)
  | invalidAmount (value : String)
  | nonPositiveAmount (value : String)
  | inconsistentDebtor (line : Nat)
  | emptyBatch
  | inconsistentExecDate (dates : List Date)
deriving DecidableEq, BEq, Repr

/-- `ensure_len` from the source: normalize, fail if longer than `maxLen`. -/
def ensure_len (label : String) (s : String) (maxLen : Nat) : Except Err String :=
  let t := normalize_text s
  if t.data.length > maxLen then .error (.fieldTooLong label maxLen t.data.length)
  else .ok t

/-- `^[A-Z]{2}[0-9]{2}[A-Z0-9]{1,30}$` (the source's `IBAN_REGEX`). -/
def ibanRegexMatch (l : List Char) : Bool :=
  match l with
  | c1 :: c2 :: c3 :: c4 :: rest =>
    isUpperAlpha c1 && isUpperAlpha c2 && isDig c3 && isDig c4 &&
    decide (1 ≤ rest.length) && decide (rest.length ≤ 30) && rest.all isUpperOrDig
  | _ => false

/-- The digit expansion `digits += ch if ch.isdigit() else str(ord(ch) - 55)`:
a digit char contributes itself, a letter its two-digit value (A=10 … Z=35). -/
def expandDigits (l : List Char) : List Nat :=
  l.flatMap (fun c =>
    if isDig c then [c.toNat - 48]
    else [(c.toNat - 55) / 10, (c.toNat - 55) % 10])

/-- Value of a decimal digit sequence read left to right. -/
def digitsVal (ds : List Nat) : Nat := ds.foldl (fun a d => a * 10 + d) 0

/-- Body of `chunked97`, recursing on a fuel bound (any fuel at least the list
length reaches the empty list, since each step consumes at least one digit). -/
def chunked97Go : Nat → Nat → List Nat → Nat
  | _, r, [] => r
  | 0, r, _ :: _ => r
  | fuel + 1, r, d :: ds =>
    chunked97Go fuel
      ((r * 10 ^ ((d :: ds).take 9).length + digitsVal ((d :: ds).take 9)) % 97)
      ((d :: ds).drop 9)

/-- The source's chunked mod-97 loop: `remainder = int(str(remainder) +
digits[i:i+9]) % 97` over 9-digit chunks; numerically the concatenation
`str(remainder) + chunk` is `remainder * 10^len(chunk) + val(chunk)`. -/
def chunked97 (r : Nat) (ds : List Nat) : Nat := chunked97Go ds.length r ds

/-- The canonical form `normalize_text(iban).replace(" ", "").upper()`. -/
def ibanCanon (s : String) : String :=
  asciiUpper (String.mk ((normalize_text s).data.filter (fun c => c ≠ ' ')))

/-- `iban_is_valid` from the source: regex check, rearrangement
`iban[4:] + iban[:4]`, digit expansion, then the chunked mod-97 test. -/
def iban_is_valid (iban : String) : Bool :=
  ibanRegexMatch (ibanCanon iban).data &&
  (chunked97 0 (expandDigits ((ibanCanon iban).data.drop 4 ++ (ibanCanon iban).data.take 4)) == 1)

/-- `^[A-Z]{4}[A-Z]{2}[A-Z0-9]{2}([A-Z0-9]{3})?$` (the source's `BICFI_REGEX`). -/
def bicRegexMatch (l : List Char) : Bool :=
  match l with
  | c1 :: c2 :: c3 :: c4 :: c5 :: c6 :: rest =>
    isUpperAlpha c1 && isUpperAlpha c2 && isUpperAlpha c3 && isUpperAlpha c4 &&
    isUpperAlpha c5 && isUpperAlpha c6 &&
    (decide (rest.length = 2) || decide (rest.length = 5)) && rest.all isUpperOrDig
  | _ => false

/-- `bicfi_is_valid` from the source. -/
def bicfi_is_valid (bicfi : String) : Bool :=
  bicRegexMatch (asciiUpper (normalize_text bicfi)).data

/-! ### The `decimal.Decimal` model -/

/-- A finite decimal: value `m * 10 ^ exp`.  `Decimal("12.34")` is `⟨1234, -2⟩`. -/
structure Dec where
  m : Int
  exp : Int
deriving DecidableEq, BEq, Repr

/-- Value of an ASCII digit-char sequence. -/
def digitsToNat (l : List Char) : Nat :=
  l.foldl (fun a c => a * 10 + (c.toNat - 48)) 0

/-- Exponent clause `(E(?P<exp>[-+]?\d+))?` of the `Decimal` literal grammar,
given the already-consumed sign and integer/fraction digits. -/
def decExpPart (sgn : Int) (intPart fracPart : List Char) : List Char → Option Dec
  | [] => some ⟨sgn * digitsToNat (intPart ++ fracPart), -(fracPart.length : Int)⟩
  | c :: r =>
    if c = 'e' ∨ c = 'E' then
      let (esgn, r1) : Int × List Char :=
        match r with
        | '+' :: rr => (1, rr)
        | '-' :: rr => (-1, rr)
        | rr => (1, rr)
      let eDigits := r1.takeWhile isDig
      let r2 := r1.dropWhile isDig
      if eDigits = [] ∨ r2 ≠ [] then none
      else some ⟨sgn * digitsToNat (intPart ++ fracPart),
                 esgn * digitsToNat eDigits - fracPart.length⟩
    else none

/-- Body of the `Decimal` numeric-literal grammar after whitespace stripping:
`[-+]? ( \d* ( \. \d* )? )` with at least one digit, then optional exponent. -/
def decLitCore (l : List Char) : Option Dec :=
  let (sgn, l1) : Int × List Char :=
    match l with
    | '+' :: r => (1, r)
    | '-' :: r => (-1, r)
    | r => (1, r)
  let intPart := l1.takeWhile isDig
  let l2 := l1.dropWhile isDig
  match l2 with
  | '.' :: r =>
    let fracPart := r.takeWhile isDig
    let l3 := r.dropWhile isDig
    if intPart = [] ∧ fracPart = [] then none
    else decExpPart sgn intPart fracPart l3
  | _ => if intPart = [] then none else decExpPart sgn intPart [] l2

/-- The `Decimal(str)` constructor on finite numeric literals (the grammar
allows surrounding whitespace, which the constructor strips). -/
def decLit (s : String) : Option Dec :=
  decLitCore (pyStrip s.data)

/-- `ROUND_HALF_UP` division (ties away from zero): rounds `num / den` for
`den > 0`. -/
def roundHalfAway (num den : Int) : Int :=
  if 0 ≤ num then (num + den / 2) / den else -((-num + den / 2) / den)

/-- `d.quantize(Decimal("0.01"), rounding=ROUND_HALF_UP)`, as a count of
cents (the exponent of the result is always `-2`). -/
def quantizeCents (d : Dec) : Int :=
  if -2 ≤ d.exp then d.m * 10 ^ (d.exp + 2).toNat
  else roundHalfAway d.m (10 ^ (-2 - d.exp).toNat)

/-- The comma branch of `parse_decimal_eur`: if the normalized text contains a
comma, drop every period and turn the comma into a decimal point. -/
def commaFix (v : String) : String :=
  if v.data.contains ',' then
    String.mk ((v.data.filter (fun c => c ≠ '.')).map (fun c => if c = ',' then '.' else c))
  else v

/-- `parse_decimal_eur` from the source.  The sign of a finite `Decimal` is
the sign of its mantissa, so `d <= 0` is `d.m ≤ 0`.  The result is the
quantized value in cents (its decimal exponent is always `-2`). -/
def parse_decimal_eur (value : String) : Except Err Int :=
  let vraw := normalize_text value
  let v := commaFix vraw
  match decLit v with
  | none => .error (.invalidAmount value)
  | some d =>
    if d.m ≤ 0 then .error (.nonPositiveAmount value)
    else .ok (quantizeCents d)

/-! ### The `datetime.strptime(v, "%d/%m/%Y")` model -/

/-- Gregorian leap year, as `datetime` computes it. -/
def isLeap (y : Nat) : Bool := (y % 4 = 0 ∧ y % 100 ≠ 0) ∨ y % 400 = 0

/-- Days in a month (proleptic Gregorian, as `datetime` uses). -/
def daysInMonth (y m : Nat) : Nat :=
  if m = 2 then (if isLeap y then 29 else 28)
  else if m = 4 ∨ m = 6 ∨ m = 9 ∨ m = 11 then 30
  else 31

/-- Split a character list at `'/'` (`splitSlash l` never returns `[]`). -/
def splitSlash : List Char → List (List Char)
  | [] => [[]]
  | c :: rest =>
    if c = '/' then [] :: splitSlash rest
    else
      match splitSlash rest with
      | p :: ps => (c :: p) :: ps
      | [] => [[c]]

/-- The strptime `%d` field: `3[01]|[12]\d|0[1-9]|[1-9]` (one or two digits,
value 1–31, `"00"` and a bare `"0"` rejected). -/
def dayNum : List Char → Option Nat
  | [c] => if '1' ≤ c ∧ c ≤ '9' then some (c.toNat - 48) else none
  | [c1, c2] =>
    if isDig c1 ∧ isDig c2 then
      let v := (c1.toNat - 48) * 10 + (c2.toNat - 48)
      if 1 ≤ v ∧ v ≤ 31 then some v else none
    else none
  | _ => none

/-- The strptime `%m` field: `1[0-2]|0[1-9]|[1-9]`. -/
def monthNum : List Char → Option Nat
  | [c] => if '1' ≤ c ∧ c ≤ '9' then some (c.toNat - 48) else none
  | [c1, c2] =>
    if isDig c1 ∧ isDig c2 then
      let v := (c1.toNat - 48) * 10 + (c2.toNat - 48)
      if 1 ≤ v ∧ v ≤ 12 then some v else none
    else none
  | _ => none

/-- The strptime `%Y` field: exactly four digits. -/
def yearNum : List Char → Option Nat
  | [c1, c2, c3, c4] =>
    if isDig c1 ∧ isDig c2 ∧ isDig c3 ∧ isDig c4 then
      some (digitsToNat [c1, c2, c3, c4])
    else none
  | _ => none

/-- `datetime.strptime(v, "%d/%m/%Y").date()`: full-string match of the three
fields separated by `/`, then the `datetime` constructor's range checks
(`MINYEAR = 1`, day within the month). -/
def strptimeDMY (v : String) : Option Date :=
  match splitSlash v.data with
  | [p1, p2, p3] =>
    match dayNum p1, monthNum p2, yearNum p3 with
    | some d, some m, some y =>
      if 1 ≤ y ∧ d ≤ daysInMonth y m then some ⟨y, m, d⟩ else none
    | _, _, _ => none
  | _ => none

/-- `parse_date_pt` from the source. -/
def parse_date_pt (value : String) : Except Err Date :=
  match strptimeDMY (normalize_text value) with
  | some dt => .ok dt
  | none => .error (.invalidDate value)

/-! ### The batch model and the CSV row parser -/

/-- `BatchHeader` from the source. -/
structure BatchHeader where
  debtor_name : String
  debtor_nif : String
  debtor_iban : String
  debtor_bicfi : String
  exec_date : Date
deriving DecidableEq, BEq, Repr

/-- `PaymentRow` from the source.  `parse_decimal_eur` always returns a
`Decimal` with exponent `-2`, so the amount is kept as its value in cents. -/
structure PaymentRow where
  creditor_name : String
  creditor_iban : String
  creditor_bicfi : Option String
  amount : Int
deriving DecidableEq, BEq, Repr

/-- The required column set `CSV_HEADER`. -/
def CSV_HEADER : List String :=
  ["Nome_ORDENANTE", "NIF_ORDENANTE", "IBAN_ORDENANTE", "BIC_ORDENANTE",
   "Data_EXECUCAO", "Valor", "Nome_FORNECEDOR", "IBAN_FORNECEDOR", "BIC_FORNECEDOR"]

/-- Index of the last occurrence of `x` (for `dict(zip(fieldnames, row))`,
where a duplicated key keeps its last value). -/
def lastIdx : List String → String → Option Nat
  | [], _ => none
  | h :: t, x =>
    match lastIdx t x with
    | some i => some (i + 1)
    | none => if h = x then some 0 else none

/-- `row.get(col, "")` on a `csv.DictReader` row: the dict maps each (raw)
fieldname to the value at its position, `None` (here `""`, via the
`(s or "")` in `normalize_text`) when the row is too short, and `.get`
returns `""` when the column is not a fieldname at all. -/
def rowGet (fieldnames vals : List String) (col : String) : String :=
  match lastIdx fieldnames col with
  | none => ""
  | some i => vals.getD i ""

/-- One CSV input: the header line and the data rows. -/
structure CsvInput where
  fieldnames : List String
  rows : List (List String)

/-- The loop body of `_parse_payments_reader` for one data row (`lineNo` is
the enumeration value, starting at 2): every field validation and the
per-row debtor-consistency check, in the source's order.  Returns the batch
header in force after this row, the payment row and its execution date. -/
def parseOneRow (fieldnames : List String) (lineNo : Nat) (batch : Option BatchHeader)
    (vals : List String) : Except Err (BatchHeader × PaymentRow × Date) :=
  match ensure_len "Nome_ORDENANTE" (rowGet fieldnames vals "Nome_ORDENANTE") MAX_NAME with
  | .error e => .error e
  | .ok debtor_name =>
  let nif0 := normalize_text (rowGet fieldnames vals "NIF_ORDENANTE")
  if ¬ pyIsDigitStr nif0 then .error (.invalidTaxId lineNo nif0)
  else match ensure_len "NIF_ORDENANTE" nif0 35 with
  | .error e => .error e
  | .ok debtor_nif =>
  let debtor_iban :=
    asciiUpper (String.mk ((normalize_text (rowGet fieldnames vals "IBAN_ORDENANTE")).data.filter
      (fun c => c ≠ ' ')))
  if ¬ iban_is_valid debtor_iban then .error (.invalidIban lineNo "IBAN_ORDENANTE" debtor_iban)
  else
  let debtor_bicfi := asciiUpper (normalize_text (rowGet fieldnames vals "BIC_ORDENANTE"))
  if ¬ bicfi_is_valid debtor_bicfi then .error (.invalidBic lineNo "BIC_ORDENANTE" debtor_bicfi)
  else match parse_date_pt (rowGet fieldnames vals "Data_EXECUCAO") with
  | .error e => .error e
  | .ok exec_date =>
  match batch with
  | some b =>
    if b.debtor_name ≠ debtor_name ∨ b.debtor_nif ≠ debtor_nif ∨
       b.debtor_iban ≠ debtor_iban ∨ b.debtor_bicfi ≠ debtor_bicfi then
      .error (.inconsistentDebtor lineNo)
    else parseRowTail fieldnames lineNo b vals exec_date
  | none =>
    parseRowTail fieldnames lineNo
      ⟨debtor_name, debtor_nif, debtor_iban, debtor_bicfi, exec_date⟩ vals exec_date
where
  /-- The creditor half of the loop body (after the debtor checks). -/
  parseRowTail (fieldnames : List String) (lineNo : Nat) (b : BatchHeader)
      (vals : List String) (exec_date : Date) : Except Err (BatchHeader × PaymentRow × Date) :=
    match parse_decimal_eur (rowGet fieldnames vals "Valor") with
    | .error e => .error e
    | .ok amount =>
    match ensure_len "Nome_FORNECEDOR" (rowGet fieldnames vals "Nome_FORNECEDOR") MAX_NAME with
    | .error e => .error e
    | .ok creditor_name =>
    let creditor_iban :=
      asciiUpper (String.mk ((normalize_text (rowGet fieldnames vals "IBAN_FORNECEDOR")).data.filter
        (fun c => c ≠ ' ')))
    if ¬ iban_is_valid creditor_iban then .error (.invalidIban lineNo "IBAN_FORNECEDOR" creditor_iban)
    else
    let creditor_bicfi0 := asciiUpper (normalize_text (rowGet fieldnames vals "BIC_FORNECEDOR"))
    if creditor_bicfi0 ≠ "" then
      if ¬ bicfi_is_valid creditor_bicfi0 then
        .error (.invalidBic lineNo "BIC_FORNECEDOR" creditor_bicfi0)
      else .ok (b, ⟨creditor_name, creditor_iban, some creditor_bicfi0, amount⟩, exec_date)
    else .ok (b, ⟨creditor_name, creditor_iban, none, amount⟩, exec_date)

/-- `exec_dates.add(d)` on the set of execution dates, kept as a list of
distinct elements. -/
def insertDate (d : Date) (l : List Date) : List Date :=
  if l.contains d then l else l ++ [d]

/-- Chronological order on dates. -/
def dateKey (dt : Date) : Nat := dt.y * 10000 + dt.m * 100 + dt.d

/-- Insertion step of `sortDates`. -/
def insSorted (d : Date) : List Date → List Date
  | [] => [d]
  | e :: rest => if dateKey d ≤ dateKey e then d :: e :: rest else e :: insSorted d rest

/-- `sorted(exec_dates)` (chronological). -/
def sortDates (l : List Date) : List Date := l.foldr insSorted []

/-- The `for line_no, row in enumerate(reader, start=2)` loop. -/
def parseRowsAux (fieldnames : List String) (lineNo : Nat) (batch : Option BatchHeader)
    (payments : List PaymentRow) (dates : List Date) :
    List (List String) → Except Err (Option BatchHeader × List PaymentRow × List Date)
  | [] => .ok (batch, payments, dates)
  | vals :: rest =>
    match parseOneRow fieldnames lineNo batch vals with
    | .error e => .error e
    | .ok (b, row, dt) =>
      parseRowsAux fieldnames (lineNo + 1) (some b) (payments ++ [row]) (insertDate dt dates) rest

/-- `_parse_payments_reader` from the source: the missing-column check
(whitespace-normalized names), the row loop, then the emptiness and
single-execution-date checks. -/
def _parse_payments_reader (inp : CsvInput) : Except Err (BatchHeader × List PaymentRow) :=
  let received := inp.fieldnames.map normalize_text
  let missing := CSV_HEADER.filter (fun c => ¬ received.contains c)
  if missing ≠ [] then .error (.missingColumns missing received)
  else
    match parseRowsAux inp.fieldnames 2 none [] [] inp.rows with
    | .error e => .error e
    | .ok (batch, payments, dates) =>
      match batch with
      | none => .error .emptyBatch
      | some b =>
        if payments = [] then .error .emptyBatch
        else if dates.length ≠ 1 then .error (.inconsistentExecDate (sortDates dates))
        else .ok (b, payments)

/-! ### The document builder -/

/-- `calc_ctrl_sum`: the amounts all have exponent `-2`, so their `Decimal`
sum has exponent `-2` and the final `quantize` is applied to it. -/
def calc_ctrl_sum (rows : List PaymentRow) : Int :=
  quantizeCents ⟨(rows.map PaymentRow.amount).sum, -2⟩

/-- Two-digit zero-padded rendering. -/
def pad2 (n : Nat) : String := if n < 10 then "0" ++ toString n else toString n

/-- Four-digit zero-padded rendering. -/
def pad4 (n : Nat) : String :=
  if n < 10 then "000" ++ toString n
  else if n < 100 then "00" ++ toString n
  else if n < 1000 then "0" ++ toString n
  else toString n

/-- `f"{d:.2f}"` for a `Decimal` with exponent `-2`, given in cents (exact,
no rounding happens at this width). -/
def formatCents (c : Int) : String :=
  let n := c.natAbs
  (if c < 0 then "-" else "") ++ toString (n / 100) ++ "." ++ pad2 (n % 100)

/-- `date.strftime("%Y-%m-%d")`. -/
def formatDateISO (dt : Date) : String :=
  pad4 dt.y ++ "-" ++ pad2 dt.m ++ "-" ++ pad2 dt.d

/-- An `ElementTree` element (every element of the document lives in the
single namespace `PAIN09_NS`, so tags are kept unprefixed). -/
inductive Xml where
  | el (tag : String) (attrs : List (String × String)) (text : Option String)
       (children : List Xml)

def Xml.tag : Xml → String
  | .el t _ _ _ => t

def Xml.attrs : Xml → List (String × String)
  | .el _ a _ _ => a

def Xml.text : Xml → Option String
  | .el _ _ t _ => t

def Xml.children : Xml → List Xml
  | .el _ _ _ c => c

/-- The `el(parent, tag, text)` helper, functional form (no attributes). -/
def el (tag : String) (text : Option String) (children : List Xml) : Xml :=
  Xml.el tag [] text children

/-- First child with the given tag. -/
def Xml.findChild (x : Xml) (t : String) : Option Xml :=
  x.children.find? (fun c => c.tag == t)

/-- Number of children with the given tag. -/
def Xml.countTag (x : Xml) (t : String) : Nat :=
  (x.children.filter (fun c => c.tag == t)).length

/-- Text content at the end of a child-tag path. -/
def Xml.textAt (x : Xml) : List String → Option String
  | [] => x.text
  | t :: rest =>
    match x.findChild t with
    | some c => c.textAt rest
    | none => none

/-- `build_grp_hdr` from the source.  `MsgId` and `CreDtTm` come from
`make_msg_id` / `datetime.now()` (wall clock and randomness), so they are
taken as parameters. -/
def build_grp_hdr (msgId creDtTm : String) (batch : BatchHeader)
    (payments : List PaymentRow) : Xml :=
  el "GrpHdr" none
    [ el "MsgId" (some msgId) [],
      el "CreDtTm" (some creDtTm) [],
      el "NbOfTxs" (some (toString payments.length)) [],
      el "CtrlSum" (some (formatCents (calc_ctrl_sum payments))) [],
      el "InitgPty" none
        [ el "Nm" (some batch.debtor_name) [],
          el "Id" none
            [ el "PrvtId" none
                [ el "Othr" none [el "Id" (some batch.debtor_nif) []] ] ] ] ]

/-- `build_pmt_inf` from the source (before the transactions are appended);
`PmtInfId` comes from `make_pmt_inf_id` and is taken as a parameter. -/
def build_pmt_inf (pmtInfId : String) (batch : BatchHeader)
    (payments : List PaymentRow) : Xml :=
  el "PmtInf" none
    [ el "PmtInfId" (some pmtInfId) [],
      el "PmtMtd" (some "TRF") [],
      el "NbOfTxs" (some (toString payments.length)) [],
      el "CtrlSum" (some (formatCents (calc_ctrl_sum payments))) [],
      el "PmtTpInf" none
        [ el "SvcLvl" none [el "Cd" (some "SEPA") []],
          el "CtgyPurp" none [el "Cd" (some "SUPP") []] ],
      el "ReqdExctnDt" none [el "Dt" (some (formatDateISO batch.exec_date)) []],
      el "Dbtr" none [el "Nm" (some batch.debtor_name) []],
      el "DbtrAcct" none
        [ el "Id" none [el "IBAN" (some batch.debtor_iban) []],
          el "Ccy" (some "EUR") [] ],
      el "DbtrAgt" none [el "FinInstnId" none [el "BICFI" (some batch.debtor_bicfi) []]] ]

/-- `build_cdt_trf_tx_inf` from the source.  `if row.creditor_bicfi:` is
Python truthiness: the `CdtrAgt` block is emitted only for a present,
non-empty BIC. -/
def build_cdt_trf_tx_inf (row : PaymentRow) : Xml :=
  el "CdtTrfTxInf" none
    ([ el "PmtId" none [el "EndToEndId" (some "NOTPROVIDED") []],
       el "Amt" none [Xml.el "InstdAmt" [("Ccy", "EUR")] (some (formatCents row.amount)) []] ]
     ++ (match row.creditor_bicfi with
         | some b =>
           if b = "" then []
           else [el "CdtrAgt" none [el "FinInstnId" none [el "BICFI" (some b) []]]]
         | none => [])
     ++ [ el "Cdtr" none [el "Nm" (some row.creditor_name) []],
          el "CdtrAcct" none [el "Id" none [el "IBAN" (some row.creditor_iban) []]],
          el "Purp" none [el "Cd" (some "SUPP") []],
          el "RmtInf" none [el "Ustrd" (some "PAGAMENTO") []] ])

/-- Append extra children to an element (the source mutates `pmt` by adding
one `CdtTrfTxInf` per row). -/
def Xml.appendChildren (x : Xml) (extra : List Xml) : Xml :=
  match x with
  | .el t a txt c => .el t a txt (c ++ extra)

/-- `build_document` from the source. -/
def build_document (msgId creDtTm pmtInfId : String) (batch : BatchHeader)
    (payments : List PaymentRow) : Xml :=
  el "Document" none
    [ el "CstmrCdtTrfInitn" none
        [ build_grp_hdr msgId creDtTm batch payments,
          (build_pmt_inf pmtInfId batch payments).appendChildren
            (payments.map build_cdt_trf_tx_inf) ] ]

/-! ### Spec-side predicates and helpers used by the theorems -/

/-- Inverse of `splitSlash`: rejoin parts with `'/'`. -/
def joinSlash : List (List Char) → List Char
  | [] => []
  | [p] => p
  | p :: ps => p ++ '/' :: joinSlash ps

/-- The spec's notion of a strict `dd/mm/yyyy` string: three slash-separated
fields — a 1–2-digit day, a 1–2-digit month, a 4-digit year — denoting a real
calendar date (day within the month, year at least 1). -/
def strictDMY (s : String) : Prop :=
  ∃ p1 p2 p3 d m y,
    s.data = p1 ++ '/' :: (p2 ++ '/' :: p3) ∧
    dayNum p1 = some d ∧ monthNum p2 = some m ∧ yearNum p3 = some y ∧
    1 ≤ y ∧ d ≤ daysInMonth y m

/-! ### Concrete fixtures used by witnesses and counterexamples.
`"GB82WEST12345698765432"` and `"PT50000201231234567890154"` are checksum-valid
IBANs, `"DEUTDEFF"` a pattern-valid BIC. -/

/-- A validated batch header (as `_parse_payments_reader` would produce). -/
def cBatch : BatchHeader :=
  ⟨"Ana", "123456789", "GB82WEST12345698765432", "DEUTDEFF", ⟨2024, 1, 1⟩⟩

/-- Two validated payment rows with amounts 100.00 and 50.50 EUR. -/
def cRows2 : List PaymentRow :=
  [⟨"Bob", "PT50000201231234567890154", none, 10000⟩,
   ⟨"Cid", "PT50000201231234567890154", some "DEUTDEFF", 5050⟩]

/-- A raw CSV data row that passes every validation (amount `100,00`,
blank creditor BIC). -/
def cValsGood : List String :=
  ["Ana", "123456789", "GB82WEST12345698765432", "DEUTDEFF", "01/01/2024",
   "100,00", "Bob", "PT50000201231234567890154", ""]

/-- Like `cValsGood` but with execution date `02/01/2024`. -/
def cValsDate2 : List String :=
  ["Ana", "123456789", "GB82WEST12345698765432", "DEUTDEFF", "02/01/2024",
   "50,50", "Cid", "PT50000201231234567890154", "DEUTDEFF"]

/-- Like `cValsGood` but with the unparsable amount `abc`. -/
def cValsBadAmount : List String :=
  ["Ana", "123456789", "GB82WEST12345698765432", "DEUTDEFF", "01/01/2024",
   "abc", "Cid", "PT50000201231234567890154", ""]

/-- Like `cValsGood` but with amount `0.001` (positive, rounds to 0.00). -/
def cValsTinyAmount : List String :=
  ["Ana", "123456789", "GB82WEST12345698765432", "DEUTDEFF", "01/01/2024",
   "0.001", "Bob", "PT50000201231234567890154", ""]

/-- Like `cValsGood` but with blank debtor and creditor names. -/
def cValsBlankNames : List String :=
  ["", "123456789", "GB82WEST12345698765432", "DEUTDEFF", "01/01/2024",
   "10", "", "PT50000201231234567890154", ""]

/-- The payment row parsed from `cValsGood`. -/
def cRowGood : PaymentRow := ⟨"Bob", "PT50000201231234567890154", none, 10000⟩

/-- Like `cValsGood` but with the non-numeric tax id `abc`. -/
def cValsBadNif : List String :=
  ["Ana", "abc", "GB82WEST12345698765432", "DEUTDEFF", "01/01/2024",
   "10", "Bob", "PT50000201231234567890154", ""]

/-- `CSV_HEADER` with the first column in the wrong case. -/
def cFieldnamesLower : List String :=
  ["nome_ordenante", "NIF_ORDENANTE", "IBAN_ORDENANTE", "BIC_ORDENANTE",
   "Data_EXECUCAO", "Valor", "Nome_FORNECEDOR", "IBAN_FORNECEDOR", "BIC_FORNECEDOR"]

/-- Row-number discipline of the loop body's errors at row `n`: the tax-id,
IBAN, BIC and debtor-consistency errors carry exactly the failing row's
number; the length, date and amount errors carry no row number at all; the
loop body never raises the structural errors. -/
def rowErrOk (n : Nat) : Err → Prop
  | .invalidTaxId m _ => m = n
  | .invalidIban m _ _ => m = n
  | .invalidBic m _ _ => m = n
  | .inconsistentDebtor m => m = n
  | .fieldTooLong _ _ _ => True
  | .invalidDate _ => True
  | .invalidAmount _ => True
  | .nonPositiveAmount _ => True
  | _ => False

/-! ## Arithmetic of the chunked mod-97 reduction (for C3) -/

theorem digitsVal_foldl (l : List Nat) :
    ∀ a : Nat, l.foldl (fun x d => x * 10 + d) a = a * 10 ^ l.length + digitsVal l := by
  induction l with
  | nil => intro a; simp [digitsVal]
  | cons d t ih =>
    intro a
    have h0 : digitsVal (d :: t) = d * 10 ^ t.length + digitsVal t := by
      show t.foldl (fun x d => x * 10 + d) (0 * 10 + d) = _
      rw [ih (0 * 10 + d)]
      ring
    rw [List.foldl_cons, ih (a * 10 + d), h0, List.length_cons]
    ring

theorem digitsVal_append (l1 l2 : List Nat) :
    digitsVal (l1 ++ l2) = digitsVal l1 * 10 ^ l2.length + digitsVal l2 := by
  unfold digitsVal
  rw [List.foldl_append]
  exact digitsVal_foldl l2 _

theorem chunked97Go_eq :
    ∀ (fuel : Nat) (ds : List Nat), ds.length ≤ fuel → ∀ r : Nat, r < 97 →
      chunked97Go fuel r ds = (r * 10 ^ ds.length + digitsVal ds) % 97 := by
  intro fuel
  induction fuel with
  | zero =>
    intro ds hds r hr
    have hnil : ds = [] := List.length_eq_zero.mp (Nat.le_zero.mp hds)
    subst hnil
    simp [chunked97Go, digitsVal, Nat.mod_eq_of_lt hr]
  | succ n ih =>
    intro ds hds r hr
    match ds with
    | [] => simp [chunked97Go, digitsVal, Nat.mod_eq_of_lt hr]
    | d :: t =>
      rw [chunked97Go]
      have hlen : ((d :: t).drop 9).length ≤ n := by
        rw [List.length_drop]
        simp only [List.length_cons] at hds ⊢
        omega
      rw [ih _ hlen _ (Nat.mod_lt _ (by norm_num))]
      have htd : (d :: t).take 9 ++ (d :: t).drop 9 = d :: t := List.take_append_drop 9 _
      have h2 : (r * 10 ^ ((d :: t).take 9).length + digitsVal ((d :: t).take 9)) *
                  10 ^ ((d :: t).drop 9).length + digitsVal ((d :: t).drop 9)
              = r * 10 ^ (d :: t).length + digitsVal (d :: t) := by
        conv_rhs => rw [← htd]
        rw [digitsVal_append, List.length_append, pow_add]
        ring
      have h1 : (((r * 10 ^ ((d :: t).take 9).length + digitsVal ((d :: t).take 9)) % 97) *
                  10 ^ ((d :: t).drop 9).length + digitsVal ((d :: t).drop 9)) % 97
              = ((r * 10 ^ ((d :: t).take 9).length + digitsVal ((d :: t).take 9)) *
                  10 ^ ((d :: t).drop 9).length + digitsVal ((d :: t).drop 9)) % 97 :=
        ((Nat.mod_modEq _ 97).mul_right _).add_right _
      rw [h1, h2]

theorem chunked97_mod (ds : List Nat) : chunked97 0 ds = digitsVal ds % 97 := by
  unfold chunked97
  rw [chunked97Go_eq ds.length ds le_rfl 0 (by norm_num)]
  simp

/-- Claim C3. `iban_is_valid` returns `true` exactly when the canonical form of
the input (normalized, spaces removed, uppercased) matches the pattern
`{2 letters}{2 digits}{1-30 alphanumerics}` and the mod-97 checksum holds:
moving the first 4 characters to the end, expanding each letter to its value
(A=10 … Z=35), the resulting digit string has value ≡ 1 (mod 97); moreover the
source's chunked 9-digits-at-a-time reduction equals the full value mod 97 on
every digit list. -/
theorem iban_is_valid_characterization :
    (∀ s : String, iban_is_valid s = true ↔
      (ibanRegexMatch (ibanCanon s).data = true ∧
        digitsVal (expandDigits ((ibanCanon s).data.drop 4 ++ (ibanCanon s).data.take 4))
          % 97 = 1)) ∧
    (∀ ds : List Nat, chunked97 0 ds = digitsVal ds % 97) := by
  refine ⟨fun s => ?_, chunked97_mod⟩
  unfold iban_is_valid
  rw [Bool.and_eq_true, beq_iff_eq, chunked97_mod]

/-- Claim C4. `parse_decimal_eur` normalizes its input and applies the comma
rule (remove periods, turn the comma into a decimal point); every input then
either fails with `invalidAmount` (the result is unparsable as a decimal),
fails with `nonPositiveAmount` (the parsed value is ≤ 0), or succeeds with
the parsed value rounded half-up to exactly 2 decimals — together with the
spec's four examples. -/
theorem parse_decimal_eur_spec :
    parse_decimal_eur "1.234,56" = .ok 123456 ∧
    parse_decimal_eur "1234.56" = .ok 123456 ∧
    parse_decimal_eur "0" = .error (.nonPositiveAmount "0") ∧
    parse_decimal_eur "abc" = .error (.invalidAmount "abc") ∧
    (∀ s : String,
      (decLit (commaFix (normalize_text s)) = none ∧
        parse_decimal_eur s = .error (.invalidAmount s)) ∨
      (∃ d : Dec, decLit (commaFix (normalize_text s)) = some d ∧ d.m ≤ 0 ∧
        parse_decimal_eur s = .error (.nonPositiveAmount s)) ∨
      (∃ d : Dec, decLit (commaFix (normalize_text s)) = some d ∧ 0 < d.m ∧
        parse_decimal_eur s = .ok (quantizeCents d))) := by
  refine ⟨by decide, by decide, by decide, by decide, fun s => ?_⟩
  cases h : decLit (commaFix (normalize_text s)) with
  | none => exact Or.inl ⟨rfl, by simp [parse_decimal_eur, h]⟩
  | some d =>
    by_cases hm : d.m ≤ 0
    · exact Or.inr (Or.inl ⟨d, rfl, hm, by simp [parse_decimal_eur, h, hm]⟩)
    · exact Or.inr (Or.inr ⟨d, rfl, by omega, by simp [parse_decimal_eur, h, hm]⟩)

/-! ## `splitSlash` structure lemmas (for C6) -/

theorem splitSlash_ne_nil (l : List Char) : splitSlash l ≠ [] := by
  cases l with
  | nil => simp [splitSlash]
  | cons c rest =>
    simp only [splitSlash]
    split
    · simp
    · cases h : splitSlash rest <;> simp

theorem joinSlash_splitSlash (l : List Char) : joinSlash (splitSlash l) = l := by
  induction l with
  | nil => simp [splitSlash, joinSlash]
  | cons c rest ih =>
    simp only [splitSlash]
    by_cases hc : c = '/'
    · rw [if_pos hc]
      cases h : splitSlash rest with
      | nil => exact absurd h (splitSlash_ne_nil rest)
      | cons q qs =>
        rw [h] at ih
        subst hc
        simpa [joinSlash] using ih
    · rw [if_neg hc]
      cases h : splitSlash rest with
      | nil => exact absurd h (splitSlash_ne_nil rest)
      | cons q qs =>
        rw [h] at ih
        show joinSlash ((c :: q) :: qs) = c :: rest
        cases qs with
        | nil =>
          simp only [joinSlash] at ih ⊢
          rw [ih]
        | cons q2 qs2 =>
          simp only [joinSlash] at ih ⊢
          rw [← ih]
          simp

theorem splitSlash_no_slash (l : List Char) : ∀ p ∈ splitSlash l, '/' ∉ p := by
  induction l with
  | nil => simp [splitSlash]
  | cons c rest ih =>
    simp only [splitSlash]
    by_cases hc : c = '/'
    · rw [if_pos hc]
      intro p hp
      rcases List.mem_cons.mp hp with h | h
      · subst h; simp
      · exact ih p h
    · rw [if_neg hc]
      cases h : splitSlash rest with
      | nil => exact absurd h (splitSlash_ne_nil rest)
      | cons q qs =>
        rw [h] at ih
        intro p hp
        have hp2 : p ∈ (c :: q) :: qs := hp
        rcases List.mem_cons.mp hp2 with h2 | h2
        · subst h2
          intro hmem
          rcases List.mem_cons.mp hmem with h3 | h3
          · exact hc h3.symm
          · exact ih q (List.mem_cons_self q qs) h3
        · exact ih p (List.mem_cons_of_mem q h2)

theorem splitSlash_append (a : List Char) (hna : '/' ∉ a) (r : List Char) :
    splitSlash (a ++ '/' :: r) = a :: splitSlash r := by
  induction a with
  | nil => simp [splitSlash]
  | cons c t ih =>
    have hc : c ≠ '/' := fun hh => hna (hh ▸ List.mem_cons_self c t)
    have hnt : '/' ∉ t := fun hh => hna (List.mem_cons_of_mem c hh)
    show splitSlash (c :: (t ++ '/' :: r)) = (c :: t) :: splitSlash r
    simp only [splitSlash, if_neg hc]
    rw [ih hnt]

theorem splitSlash_of_no_slash (a : List Char) (hna : '/' ∉ a) : splitSlash a = [a] := by
  induction a with
  | nil => simp [splitSlash]
  | cons c t ih =>
    have hc : c ≠ '/' := fun hh => hna (hh ▸ List.mem_cons_self c t)
    have hnt : '/' ∉ t := fun hh => hna (List.mem_cons_of_mem c hh)
    simp only [splitSlash, if_neg hc]
    rw [ih hnt]

theorem isDig_ne_slash {c : Char} (h : isDig c = true) : c ≠ '/' := by
  rintro rfl
  exact absurd h (by decide)

theorem dayNum_no_slash {p : List Char} {d : Nat} (h : dayNum p = some d) : '/' ∉ p := by
  match p with
  | [] => simp [dayNum] at h
  | [c] =>
    simp only [dayNum] at h
    split at h
    · rename_i hc
      intro hmem
      simp only [List.mem_singleton] at hmem
      subst hmem
      revert hc; decide
    · exact absurd h (by simp)
  | [c1, c2] =>
    simp only [dayNum] at h
    split at h
    · rename_i hc
      intro hmem
      simp only [List.mem_cons, List.mem_singleton, List.not_mem_nil, or_false] at hmem
      rcases hmem with h3 | h3
      · exact isDig_ne_slash hc.1 h3.symm
      · exact isDig_ne_slash hc.2 h3.symm
    · exact absurd h (by simp)
  | _ :: _ :: _ :: _ => simp [dayNum] at h

theorem monthNum_no_slash {p : List Char} {m : Nat} (h : monthNum p = some m) : '/' ∉ p := by
  match p with
  | [] => simp [monthNum] at h
  | [c] =>
    simp only [monthNum] at h
    split at h
    · rename_i hc
      intro hmem
      simp only [List.mem_singleton] at hmem
      subst hmem
      revert hc; decide
    · exact absurd h (by simp)
  | [c1, c2] =>
    simp only [monthNum] at h
    split at h
    · rename_i hc
      intro hmem
      simp only [List.mem_cons, List.mem_singleton, List.not_mem_nil, or_false] at hmem
      rcases hmem with h3 | h3
      · exact isDig_ne_slash hc.1 h3.symm
      · exact isDig_ne_slash hc.2 h3.symm
    · exact absurd h (by simp)
  | _ :: _ :: _ :: _ => simp [monthNum] at h

theorem yearNum_no_slash {p : List Char} {y : Nat} (h : yearNum p = some y) : '/' ∉ p := by
  match p with
  | [c1, c2, c3, c4] =>
    simp only [yearNum] at h
    split at h
    · rename_i hc
      intro hmem
      simp only [List.mem_cons, List.not_mem_nil, or_false] at hmem
      rcases hmem with h3 | h3 | h3 | h3
      · exact isDig_ne_slash hc.1 h3.symm
      · exact isDig_ne_slash hc.2.1 h3.symm
      · exact isDig_ne_slash hc.2.2.1 h3.symm
      · exact isDig_ne_slash hc.2.2.2 h3.symm
    · exact absurd h (by simp)
  | [] => simp [yearNum] at h
  | [_] => simp [yearNum] at h
  | [_, _] => simp [yearNum] at h
  | [_, _, _] => simp [yearNum] at h
  | _ :: _ :: _ :: _ :: _ :: _ => simp [yearNum] at h

theorem strptimeDMY_isSome_iff (v : String) :
    (∃ dt, strptimeDMY v = some dt) ↔ strictDMY v := by
  constructor
  · rintro ⟨dt, h⟩
    unfold strptimeDMY at h
    split at h
    case h_2 => exact absurd h (by simp)
    case h_1 p1 p2 p3 heq =>
      split at h
      case h_2 => exact absurd h (by simp)
      case h_1 d m y hd hm hy =>
        split at h
        case isFalse => exact absurd h (by simp)
        case isTrue hcond =>
          have hjoin := joinSlash_splitSlash v.data
          rw [heq] at hjoin
          simp only [joinSlash] at hjoin
          exact ⟨p1, p2, p3, d, m, y, hjoin.symm, hd, hm, hy, hcond.1, hcond.2⟩
  · rintro ⟨p1, p2, p3, d, m, y, hdata, hd, hm, hy, h1, h2⟩
    refine ⟨⟨y, m, d⟩, ?_⟩
    unfold strptimeDMY
    rw [hdata, splitSlash_append p1 (dayNum_no_slash hd),
        splitSlash_append p2 (monthNum_no_slash hm),
        splitSlash_of_no_slash p3 (yearNum_no_slash hy)]
    simp [hd, hm, hy, h1, h2]

/-- Claim C6. After normalization, `parse_date_pt` succeeds exactly on strings
in strict day/month/4-digit-year format denoting a real calendar date and
fails with `invalidDate` otherwise — with the spec's three examples
(`"31/12/2024"` parses, `"2024-12-31"` and `"31/13/2024"` fail). -/
theorem parse_date_pt_spec :
    (∀ s : String, (∃ dt, parse_date_pt s = .ok dt) ↔ strictDMY (normalize_text s)) ∧
    parse_date_pt "31/12/2024" = .ok ⟨2024, 12, 31⟩ ∧
    parse_date_pt "2024-12-31" = .error (.invalidDate "2024-12-31") ∧
    parse_date_pt "31/13/2024" = .error (.invalidDate "31/13/2024") := by
  refine ⟨fun s => ?_, by decide, by decide, by decide⟩
  rw [← strptimeDMY_isSome_iff]
  cases hst : strptimeDMY (normalize_text s) with
  | some dt => simp [parse_date_pt, hst]
  | none => simp [parse_date_pt, hst]

/-! ## The control sums of the built document (C1) -/

theorem calc_ctrl_sum_eq (rows : List PaymentRow) :
    calc_ctrl_sum rows = (rows.map PaymentRow.amount).sum := by
  simp [calc_ctrl_sum, quantizeCents]

/-- Claim C1. In the document built for a non-empty row list, `CtrlSum` under
`GrpHdr` and `CtrlSum` under `PmtInf` are both the 2-decimal fixed rendering
of the sum of all row amounts (which, the amounts being exact cents, equals
that sum rounded half-up to 2 decimals: `calc_ctrl_sum`), and `NbOfTxs` in
both places is the row count. -/
theorem document_ctrl_sum_consistent (batch : BatchHeader) (payments : List PaymentRow)
    (msgId creDtTm pmtInfId : String) (hne : payments ≠ []) :
    (build_document msgId creDtTm pmtInfId batch payments).textAt
        ["CstmrCdtTrfInitn", "GrpHdr", "CtrlSum"]
      = some (formatCents ((payments.map PaymentRow.amount).sum)) ∧
    (build_document msgId creDtTm pmtInfId batch payments).textAt
        ["CstmrCdtTrfInitn", "PmtInf", "CtrlSum"]
      = some (formatCents ((payments.map PaymentRow.amount).sum)) ∧
    calc_ctrl_sum payments = (payments.map PaymentRow.amount).sum ∧
    (build_document msgId creDtTm pmtInfId batch payments).textAt
        ["CstmrCdtTrfInitn", "GrpHdr", "NbOfTxs"]
      = some (toString payments.length) ∧
    (build_document msgId creDtTm pmtInfId batch payments).textAt
        ["CstmrCdtTrfInitn", "PmtInf", "NbOfTxs"]
      = some (toString payments.length) := by
  refine ⟨?_, ?_, calc_ctrl_sum_eq payments, ?_, ?_⟩ <;>
    simp [build_document, build_grp_hdr, build_pmt_inf, el, Xml.appendChildren,
      Xml.textAt, Xml.findChild, Xml.children, Xml.tag, Xml.text, List.find?,
      calc_ctrl_sum_eq]

/-- Witness for C1 at a concrete two-row batch (100.00 and 50.50 EUR). -/
theorem document_ctrl_sum_consistent_witness :
    (build_document "M" "T" "P" cBatch cRows2).textAt
        ["CstmrCdtTrfInitn", "GrpHdr", "CtrlSum"]
      = some (formatCents ((cRows2.map PaymentRow.amount).sum)) ∧
    (build_document "M" "T" "P" cBatch cRows2).textAt
        ["CstmrCdtTrfInitn", "PmtInf", "CtrlSum"]
      = some (formatCents ((cRows2.map PaymentRow.amount).sum)) ∧
    calc_ctrl_sum cRows2 = (cRows2.map PaymentRow.amount).sum ∧
    (build_document "M" "T" "P" cBatch cRows2).textAt
        ["CstmrCdtTrfInitn", "GrpHdr", "NbOfTxs"] = some (toString cRows2.length) ∧
    (build_document "M" "T" "P" cBatch cRows2).textAt
        ["CstmrCdtTrfInitn", "PmtInf", "NbOfTxs"] = some (toString cRows2.length) :=
  document_ctrl_sum_consistent cBatch cRows2 "M" "T" "P" (by decide)

/-! ## Row invariants of the parser (C2, C5) -/

theorem quantizeCents_nonneg {d : Dec} (hm : 0 < d.m) : 0 ≤ quantizeCents d := by
  unfold quantizeCents
  split
  · exact mul_nonneg hm.le (by positivity)
  · unfold roundHalfAway
    rw [if_pos hm.le]
    apply Int.ediv_nonneg
    · have h2 : (0 : Int) ≤ 10 ^ (-2 - d.exp).toNat / 2 :=
        Int.ediv_nonneg (by positivity) (by norm_num)
      omega
    · positivity

theorem parse_decimal_eur_nonneg {s : String} {c : Int}
    (h : parse_decimal_eur s = .ok c) : 0 ≤ c := by
  simp only [parse_decimal_eur] at h
  split at h
  · exact absurd h (by simp)
  · rename_i d hd
    split at h
    · exact absurd h (by simp)
    · rename_i hm
      cases h
      exact quantizeCents_nonneg (by omega)

/-- Structure of a payment row accepted by the loop body: the creditor BIC is
absent or a valid non-empty BIC, and the amount (already rounded) is ≥ 0. -/
theorem parseRowTail_ok_row {fn : List String} {n : Nat} {b : BatchHeader}
    {vals : List String} {dt : Date} {res : BatchHeader × PaymentRow × Date}
    (h : parseOneRow.parseRowTail fn n b vals dt = .ok res) :
    (res.2.1.creditor_bicfi = none ∨
      ∃ bic, res.2.1.creditor_bicfi = some bic ∧ bic ≠ "" ∧ bicfi_is_valid bic = true) ∧
    0 ≤ res.2.1.amount := by
  simp only [parseOneRow.parseRowTail] at h
  split at h
  · exact absurd h (by simp)
  · rename_i amount hamt
    split at h
    · exact absurd h (by simp)
    · rename_i cname hname
      split at h
      · exact absurd h (by simp)
      · split at h
        · split at h
          · exact absurd h (by simp)
          · rename_i hne hvalid
            cases h
            exact ⟨Or.inr ⟨_, rfl, hne, by simpa using hvalid⟩, parse_decimal_eur_nonneg hamt⟩
        · cases h
          exact ⟨Or.inl rfl, parse_decimal_eur_nonneg hamt⟩

/-- Lift of `parseRowTail_ok_row` through the debtor half of the loop body. -/
theorem parseOneRow_ok_row {fn : List String} {n : Nat} {batch : Option BatchHeader}
    {vals : List String} {res : BatchHeader × PaymentRow × Date}
    (h : parseOneRow fn n batch vals = .ok res) :
    (res.2.1.creditor_bicfi = none ∨
      ∃ bic, res.2.1.creditor_bicfi = some bic ∧ bic ≠ "" ∧ bicfi_is_valid bic = true) ∧
    0 ≤ res.2.1.amount := by
  simp only [parseOneRow] at h
  split at h
  · exact absurd h (by simp)
  · split at h
    · exact absurd h (by simp)
    · split at h
      · exact absurd h (by simp)
      · split at h
        · exact absurd h (by simp)
        · split at h
          · exact absurd h (by simp)
          · split at h
            · exact absurd h (by simp)
            · split at h
              · split at h
                · exact absurd h (by simp)
                · exact parseRowTail_ok_row h
              · exact parseRowTail_ok_row h

/-- Every row kept by the loop satisfies any property that `parseOneRow`
establishes row-wise. -/
theorem parseRowsAux_ok_prop (P : PaymentRow → Prop)
    (hstep : ∀ fn n b vals res, parseOneRow fn n b vals = .ok res → P res.2.1) :
    ∀ (rows : List (List String)) (fn : List String) (n : Nat)
      (batch : Option BatchHeader) (acc : List PaymentRow) (dates : List Date)
      (res : Option BatchHeader × List PaymentRow × List Date),
      (∀ r ∈ acc, P r) → parseRowsAux fn n batch acc dates rows = .ok res →
      ∀ r ∈ res.2.1, P r := by
  intro rows
  induction rows with
  | nil =>
    intro fn n batch acc dates res hacc h
    simp only [parseRowsAux] at h
    cases h
    exact hacc
  | cons v rest ih =>
    intro fn n batch acc dates res hacc h
    simp only [parseRowsAux] at h
    split at h
    · exact absurd h (by simp)
    · rename_i t hrow
      refine ih _ _ _ _ _ _ ?_ h
      intro r hr
      rcases List.mem_append.mp hr with h2 | h2
      · exact hacc r h2
      · rcases List.mem_singleton.mp h2 with rfl
        exact hstep _ _ _ _ _ hrow

/-- Rows in a successful parse all satisfy the row-wise invariant. -/
theorem parse_ok_rows {inp : CsvInput} {b : BatchHeader} {rows : List PaymentRow}
    (h : _parse_payments_reader inp = .ok (b, rows)) :
    ∀ r ∈ rows,
      (r.creditor_bicfi = none ∨
        ∃ bic, r.creditor_bicfi = some bic ∧ bic ≠ "" ∧ bicfi_is_valid bic = true) ∧
      0 ≤ r.amount := by
  simp only [_parse_payments_reader] at h
  split at h
  · exact absurd h (by simp)
  · cases hrows : parseRowsAux inp.fieldnames 2 none [] [] inp.rows with
    | error e => rw [hrows] at h; exact absurd h (by simp)
    | ok t =>
      obtain ⟨batch, pays, dates⟩ := t
      rw [hrows] at h
      cases batch with
      | none => exact absurd h (by simp)
      | some b2 =>
        simp only [] at h
        split at h
        · exact absurd h (by simp)
        · split at h
          · exact absurd h (by simp)
          · cases h
            intro r hr
            exact parseRowsAux_ok_prop
              (fun r => (r.creditor_bicfi = none ∨
                ∃ bic, r.creditor_bicfi = some bic ∧ bic ≠ "" ∧ bicfi_is_valid bic = true) ∧
                0 ≤ r.amount)
              (fun fn n bb vals res hres => parseOneRow_ok_row hres)
              inp.rows inp.fieldnames 2 none [] [] (some b, rows, dates)
              (by simp) hrows r hr

theorem build_tx_no_agent {row : PaymentRow} (h : row.creditor_bicfi = none) :
    Xml.countTag (build_cdt_trf_tx_inf row) "CdtrAgt" = 0 := by
  simp [build_cdt_trf_tx_inf, el, Xml.countTag, Xml.children, Xml.tag, h]

theorem build_tx_agent {row : PaymentRow} {bic : String}
    (h : row.creditor_bicfi = some bic) (hne : bic ≠ "") :
    ((build_cdt_trf_tx_inf row).findChild "CdtrAgt"
      |>.bind (fun x => x.findChild "FinInstnId")
      |>.bind (fun x => x.findChild "BICFI")
      |>.map Xml.text) = some (some bic) := by
  simp [build_cdt_trf_tx_inf, el, Xml.findChild, Xml.children, Xml.tag, Xml.text,
    h, hne, List.find?]

theorem parseOneRow_ok_tail {fn : List String} {n : Nat} {batch : Option BatchHeader}
    {vals : List String} {res : BatchHeader × PaymentRow × Date}
    (h : parseOneRow fn n batch vals = .ok res) :
    ∃ b dt, parseOneRow.parseRowTail fn n b vals dt = .ok res := by
  simp only [parseOneRow] at h
  split at h
  · exact absurd h (by simp)
  · split at h
    · exact absurd h (by simp)
    · split at h
      · exact absurd h (by simp)
      · split at h
        · exact absurd h (by simp)
        · split at h
          · exact absurd h (by simp)
          · split at h
            · exact absurd h (by simp)
            · split at h
              · split at h
                · exact absurd h (by simp)
                · exact ⟨_, _, h⟩
              · exact ⟨_, _, h⟩

theorem parseRowTail_blank_bic {fn : List String} {n : Nat} {b : BatchHeader}
    {vals : List String} {dt : Date} {res : BatchHeader × PaymentRow × Date}
    (h : parseOneRow.parseRowTail fn n b vals dt = .ok res)
    (hblank : asciiUpper (normalize_text (rowGet fn vals "BIC_FORNECEDOR")) = "") :
    res.2.1.creditor_bicfi = none := by
  simp only [parseOneRow.parseRowTail] at h
  rw [hblank] at h
  split at h
  · exact absurd h (by simp)
  · split at h
    · exact absurd h (by simp)
    · split at h
      · exact absurd h (by simp)
      · split at h
        · rename_i hcond
          exact absurd rfl hcond
        · cases h
          rfl

theorem parseOneRow_blank_bic {fn : List String} {n : Nat} {batch : Option BatchHeader}
    {vals : List String} {res : BatchHeader × PaymentRow × Date}
    (h : parseOneRow fn n batch vals = .ok res)
    (hblank : normalize_text (rowGet fn vals "BIC_FORNECEDOR") = "") :
    res.2.1.creditor_bicfi = none := by
  obtain ⟨b, dt, htail⟩ := parseOneRow_ok_tail h
  exact parseRowTail_blank_bic htail (by rw [hblank]; rfl)

/-- Claim C2. Every row produced by the parser has a creditor BIC that is
either absent (`none`) — in which case the emitted `CdtTrfTxInf` contains no
`CdtrAgt` element at all — or a valid non-empty BIC, in which case the BIC is
emitted under `CdtrAgt/FinInstnId/BICFI`; and a blank `BIC_FORNECEDOR`
column (empty after normalization) always yields an absent BIC. -/
theorem creditor_bic_absent_or_valid :
    (∀ (inp : CsvInput) (b : BatchHeader) (rows : List PaymentRow),
      _parse_payments_reader inp = .ok (b, rows) → ∀ row ∈ rows,
        (row.creditor_bicfi = none ∧
          Xml.countTag (build_cdt_trf_tx_inf row) "CdtrAgt" = 0) ∨
        (∃ bic, row.creditor_bicfi = some bic ∧ bic ≠ "" ∧ bicfi_is_valid bic = true ∧
          ((build_cdt_trf_tx_inf row).findChild "CdtrAgt"
            |>.bind (fun x => x.findChild "FinInstnId")
            |>.bind (fun x => x.findChild "BICFI")
            |>.map Xml.text) = some (some bic))) ∧
    (∀ (fn : List String) (n : Nat) (batch : Option BatchHeader) (vals : List String)
       (res : BatchHeader × PaymentRow × Date),
      parseOneRow fn n batch vals = .ok res →
      normalize_text (rowGet fn vals "BIC_FORNECEDOR") = "" →
      res.2.1.creditor_bicfi = none) := by
  constructor
  · intro inp b rows h row hrow
    obtain ⟨hbic, _⟩ := parse_ok_rows h row hrow
    rcases hbic with hnone | ⟨bic, hsome, hne2, hvalid⟩
    · exact Or.inl ⟨hnone, build_tx_no_agent hnone⟩
    · exact Or.inr ⟨bic, hsome, hne2, hvalid, build_tx_agent hsome hne2⟩
  · intro fn n batch vals res h hblank
    exact parseOneRow_blank_bic h hblank

/-- Witness for C2: a parsed row with a blank creditor BIC. -/
theorem creditor_bic_absent_or_valid_witness :
    ((cRowGood.creditor_bicfi = none ∧
       Xml.countTag (build_cdt_trf_tx_inf cRowGood) "CdtrAgt" = 0) ∨
     (∃ bic, cRowGood.creditor_bicfi = some bic ∧ bic ≠ "" ∧ bicfi_is_valid bic = true ∧
       ((build_cdt_trf_tx_inf cRowGood).findChild "CdtrAgt"
         |>.bind (fun x => x.findChild "FinInstnId")
         |>.bind (fun x => x.findChild "BICFI")
         |>.map Xml.text) = some (some bic))) ∧
    cRowGood.creditor_bicfi = none :=
  ⟨creditor_bic_absent_or_valid.1 ⟨CSV_HEADER, [cValsGood]⟩ cBatch [cRowGood]
      (by decide) cRowGood (by simp),
   creditor_bic_absent_or_valid.2 CSV_HEADER 2 none cValsGood
      (cBatch, cRowGood, ⟨2024, 1, 1⟩) (by decide) (by decide)⟩

/-! ## Positivity of stored amounts (C5) -/

/-- C5 counterexample: a fully valid batch whose `Valor` is `"0.001"` — the
pre-rounding value passes the `> 0` check — parses successfully, yet the
stored (rounded) amount is `0`, which is not strictly positive. -/
theorem parsed_amount_zero_cex :
    _parse_payments_reader ⟨CSV_HEADER, [cValsTinyAmount]⟩ =
      .ok (cBatch, [⟨"Bob", "PT50000201231234567890154", none, 0⟩]) ∧
    ¬ (0 < (⟨"Bob", "PT50000201231234567890154", none, 0⟩ : PaymentRow).amount) :=
  ⟨by decide, by decide⟩

/-- Claim C5, amended. Every amount stored in a `PaymentRow` of a successful
parse is nonnegative (the value checked to be `> 0` is the one *before*
rounding; the stored rounded amount can be `0.00`, never negative). -/
theorem parsed_amounts_nonneg (inp : CsvInput) (b : BatchHeader)
    (rows : List PaymentRow) (h : _parse_payments_reader inp = .ok (b, rows)) :
    ∀ row ∈ rows, 0 ≤ row.amount :=
  fun row hrow => (parse_ok_rows h row hrow).2

/-- Witness for C5 (amended) at a concrete one-row batch. -/
theorem parsed_amounts_nonneg_witness : 0 ≤ cRowGood.amount :=
  parsed_amounts_nonneg ⟨CSV_HEADER, [cValsGood]⟩ cBatch [cRowGood] (by decide)
    cRowGood (by simp)

/-! ## The missing-column check (C7) -/

/-- C7 counterexample: a header whose first column differs from
`Nome_ORDENANTE` only in case (so that under a case-normalized comparison no
column would be missing) is rejected with `missingColumns` — the source's
comparison normalizes whitespace but not case. -/
theorem missing_columns_case_cex :
    _parse_payments_reader ⟨cFieldnamesLower, [cValsGood]⟩ =
      .error (.missingColumns ["Nome_ORDENANTE"] cFieldnamesLower) := by
  decide

/-- Claim C7, amended. Before any data row is processed the parser checks the
required columns against the whitespace-normalized (case-sensitive) header
names; whenever any are absent it fails with `missingColumns` naming exactly
the missing columns (in required-column order), for every row list — so the
failure precedes all row validation. -/
theorem missing_columns_checked_first (fn : List String) (rows : List (List String))
    (hmiss : CSV_HEADER.filter (fun c => ¬ (fn.map normalize_text).contains c) ≠ []) :
    _parse_payments_reader ⟨fn, rows⟩ =
      .error (.missingColumns
        (CSV_HEADER.filter (fun c => ¬ (fn.map normalize_text).contains c))
        (fn.map normalize_text)) := by
  simp only [_parse_payments_reader]
  rw [if_pos hmiss]

/-- Witness for C7 (amended): the case-mangled header with no rows at all. -/
theorem missing_columns_checked_first_witness :
    _parse_payments_reader ⟨cFieldnamesLower, []⟩ =
      .error (.missingColumns
        (CSV_HEADER.filter (fun c => ¬ (cFieldnamesLower.map normalize_text).contains c))
        (cFieldnamesLower.map normalize_text)) :=
  missing_columns_checked_first cFieldnamesLower [] (by decide)

/-! ## Blank names are accepted (C10) -/

/-- Claim C10. Name validation has no minimum length: blank debtor-name and
creditor-name columns are accepted (stored as empty strings), and the builder
emits the corresponding `Nm` elements with empty text rather than failing. -/
theorem blank_names_accepted :
    _parse_payments_reader ⟨CSV_HEADER, [cValsBlankNames]⟩ =
      .ok (⟨"", "123456789", "GB82WEST12345698765432", "DEUTDEFF", ⟨2024, 1, 1⟩⟩,
           [⟨"", "PT50000201231234567890154", none, 1000⟩]) ∧
    ((build_cdt_trf_tx_inf ⟨"", "PT50000201231234567890154", none, 1000⟩).findChild "Cdtr"
      |>.bind (fun x => x.findChild "Nm")
      |>.map Xml.text) = some (some "") ∧
    (build_pmt_inf "P" ⟨"", "123456789", "GB82WEST12345698765432", "DEUTDEFF", ⟨2024, 1, 1⟩⟩
        [⟨"", "PT50000201231234567890154", none, 1000⟩]).textAt ["Dbtr", "Nm"]
      = some "" :=
  ⟨by decide, by decide, by decide⟩

/-! ## Error payload discipline (C8) -/

theorem ensure_len_error {label s : String} {m : Nat} {e : Err}
    (h : ensure_len label s m = .error e) :
    ∃ k, e = .fieldTooLong label m k := by
  simp only [ensure_len] at h
  split at h
  · cases h; exact ⟨_, rfl⟩
  · exact absurd h (by simp)

theorem parse_date_pt_error {v : String} {e : Err}
    (h : parse_date_pt v = .error e) : e = .invalidDate v := by
  simp only [parse_date_pt] at h
  split at h
  · exact absurd h (by simp)
  · cases h; rfl

theorem parse_decimal_eur_error {v : String} {e : Err}
    (h : parse_decimal_eur v = .error e) :
    e = .invalidAmount v ∨ e = .nonPositiveAmount v := by
  simp only [parse_decimal_eur] at h
  split at h
  · cases h; exact Or.inl rfl
  · split at h
    · cases h; exact Or.inr rfl
    · exact absurd h (by simp)

theorem parseRowTail_error {fn : List String} {n : Nat} {b : BatchHeader}
    {vals : List String} {dt : Date} {e : Err}
    (h : parseOneRow.parseRowTail fn n b vals dt = .error e) : rowErrOk n e := by
  simp only [parseOneRow.parseRowTail] at h
  split at h
  · rename_i e2 he2
    cases h
    rcases parse_decimal_eur_error he2 with h2 | h2 <;> (subst h2; trivial)
  · split at h
    · rename_i e2 he2
      cases h
      obtain ⟨k, hk⟩ := ensure_len_error he2
      subst hk; trivial
    · split at h
      · cases h; rfl
      · split at h
        · split at h
          · cases h; rfl
          · exact absurd h (by simp)
        · exact absurd h (by simp)

theorem parseOneRow_error {fn : List String} {n : Nat} {batch : Option BatchHeader}
    {vals : List String} {e : Err}
    (h : parseOneRow fn n batch vals = .error e) : rowErrOk n e := by
  simp only [parseOneRow] at h
  split at h
  · rename_i e2 he2
    cases h
    obtain ⟨k, hk⟩ := ensure_len_error he2
    subst hk; trivial
  · split at h
    · cases h; rfl
    · split at h
      · rename_i e2 he2
        cases h
        obtain ⟨k, hk⟩ := ensure_len_error he2
        subst hk; trivial
      · split at h
        · cases h; rfl
        · split at h
          · cases h; rfl
          · split at h
            · rename_i e2 he2
              cases h
              have h2 := parse_date_pt_error he2
              subst h2; trivial
            · split at h
              · split at h
                · cases h; rfl
                · exact parseRowTail_error h
              · exact parseRowTail_error h

theorem parseRowsAux_ok_length :
    ∀ (rows : List (List String)) (fn : List String) (n : Nat)
      (batch : Option BatchHeader) (acc : List PaymentRow) (dates : List Date)
      (res : Option BatchHeader × List PaymentRow × List Date),
      parseRowsAux fn n batch acc dates rows = .ok res →
      res.2.1.length = acc.length + rows.length := by
  intro rows
  induction rows with
  | nil =>
    intro fn n batch acc dates res h
    simp only [parseRowsAux] at h
    cases h
    simp
  | cons v rest ih =>
    intro fn n batch acc dates res h
    simp only [parseRowsAux] at h
    split at h
    · exact absurd h (by simp)
    · rename_i b2 row2 dt2 hrow
      have h1 := ih _ _ _ _ _ _ h
      have h2 : (acc ++ [row2]).length = acc.length + 1 := by simp
      rw [h2] at h1
      simp only [List.length_cons]
      omega

theorem insertDate_length_le (d : Date) (l : List Date) :
    (insertDate d l).length ≤ l.length + 1 := by
  simp only [insertDate]
  split
  · omega
  · simp

theorem parseRowsAux_ok_dates_le :
    ∀ (rows : List (List String)) (fn : List String) (n : Nat)
      (batch : Option BatchHeader) (acc : List PaymentRow) (dates : List Date)
      (res : Option BatchHeader × List PaymentRow × List Date),
      parseRowsAux fn n batch acc dates rows = .ok res →
      res.2.2.length ≤ dates.length + rows.length := by
  intro rows
  induction rows with
  | nil =>
    intro fn n batch acc dates res h
    simp only [parseRowsAux] at h
    cases h
    simp
  | cons v rest ih =>
    intro fn n batch acc dates res h
    simp only [parseRowsAux] at h
    split at h
    · exact absurd h (by simp)
    · rename_i b2 row2 dt2 hrow
      have h1 := ih _ _ _ _ _ _ h
      have h2 := insertDate_length_le dt2 dates
      simp only [List.length_cons] at h1 ⊢
      omega

/-- C8 counterexample: the identical error value `invalidAmount "abc"` arises
whether the bad amount sits in the first data row (row 2) or the second
(row 3) — so amount errors carry no row number. -/
theorem row_error_no_line_cex :
    _parse_payments_reader ⟨CSV_HEADER, [cValsBadAmount]⟩ =
      .error (.invalidAmount "abc") ∧
    _parse_payments_reader ⟨CSV_HEADER, [cValsGood, cValsBadAmount]⟩ =
      .error (.invalidAmount "abc") :=
  ⟨by decide, by decide⟩

/-- Claim C8, amended. Every failure of the per-row loop body at row `n`
respects `rowErrOk n`: the tax-id, IBAN, BIC and debtor-consistency errors
carry exactly the failing row's number (and their field label), while
`fieldTooLong`, `invalidDate`, `invalidAmount` and `nonPositiveAmount` carry
no row number; and the parse is all-or-nothing: a successful parse keeps
exactly one `PaymentRow` per input row (no rows are skipped), and any failure
yields an error with no partial result. -/
theorem row_errors_and_whole_parse :
    (∀ (fn : List String) (n : Nat) (batch : Option BatchHeader)
       (vals : List String) (e : Err),
      parseOneRow fn n batch vals = .error e → rowErrOk n e) ∧
    (∀ (inp : CsvInput) (b : BatchHeader) (rows : List PaymentRow),
      _parse_payments_reader inp = .ok (b, rows) → rows.length = inp.rows.length) := by
  constructor
  · intro fn n batch vals e h
    exact parseOneRow_error h
  · intro inp b rows h
    simp only [_parse_payments_reader] at h
    split at h
    · exact absurd h (by simp)
    · cases hrows : parseRowsAux inp.fieldnames 2 none [] [] inp.rows with
      | error e => rw [hrows] at h; exact absurd h (by simp)
      | ok t =>
        obtain ⟨batch, pays, dates⟩ := t
        rw [hrows] at h
        cases batch with
        | none => exact absurd h (by simp)
        | some b2 =>
          simp only [] at h
          split at h
          · exact absurd h (by simp)
          · split at h
            · exact absurd h (by simp)
            · cases h
              have := parseRowsAux_ok_length inp.rows inp.fieldnames 2 none [] []
                (some b, rows, dates) hrows
              simpa using this

/-- Witness for C8 (amended): a tax-id failure at row 5 carries row number 5,
and a one-row parse yields exactly one payment row. -/
theorem row_errors_and_whole_parse_witness :
    rowErrOk 5 (.invalidTaxId 5 "abc") ∧
    ([cRowGood] : List PaymentRow).length = ([cValsGood] : List (List String)).length :=
  ⟨row_errors_and_whole_parse.1 CSV_HEADER 5 none cValsBadNif (.invalidTaxId 5 "abc")
      (by decide),
   row_errors_and_whole_parse.2 ⟨CSV_HEADER, [cValsGood]⟩ cBatch [cRowGood] (by decide)⟩

/-! ## Cross-row execution-date consistency (C9) -/

/-- Claim C9. If every data row is accepted by the loop body (so each row passed
all field validation and the per-row debtor-consistency check against the
batch header of the first row) but at least two distinct execution dates were
tracked, the parse fails — only after all rows are processed — with
`inconsistentExecDate` carrying the sorted distinct dates. -/
theorem exec_date_inconsistency (fn : List String) (rows : List (List String))
    (b : BatchHeader) (pays : List PaymentRow) (dates : List Date)
    (hcols : CSV_HEADER.filter (fun c => ¬ (fn.map normalize_text).contains c) = [])
    (hrows : parseRowsAux fn 2 none [] [] rows = .ok (some b, pays, dates))
    (hdates : 2 ≤ dates.length) :
    _parse_payments_reader ⟨fn, rows⟩ =
      .error (.inconsistentExecDate (sortDates dates)) := by
  have hlen := parseRowsAux_ok_length rows fn 2 none [] [] (some b, pays, dates) hrows
  simp only [List.length_nil, Nat.zero_add] at hlen
  have hdle := parseRowsAux_ok_dates_le rows fn 2 none [] [] (some b, pays, dates) hrows
  simp only [List.length_nil, Nat.zero_add] at hdle
  have hpays : ¬ (pays = []) := by
    intro hp
    rw [hp] at hlen
    simp only [List.length_nil] at hlen
    omega
  simp only [_parse_payments_reader, hrows]
  rw [if_neg (fun hh => hh hcols), if_neg hpays, if_pos (by omega : dates.length ≠ 1)]

/-- Witness for C9: two rows with identical debtor fields and dates
01/01/2024 vs 02/01/2024. -/
theorem exec_date_inconsistency_witness :
    _parse_payments_reader ⟨CSV_HEADER, [cValsGood, cValsDate2]⟩ =
      .error (.inconsistentExecDate (sortDates [⟨2024, 1, 1⟩, ⟨2024, 1, 2⟩])) :=
  exec_date_inconsistency CSV_HEADER [cValsGood, cValsDate2] cBatch cRows2
    [⟨2024, 1, 1⟩, ⟨2024, 1, 2⟩] (by decide) (by decide) (by decide)

end ConvertXML
